import Mathlib

/-!
Verification development for the session/conversation persistence and
client-state-synchronization layer of the AI Triage demo application
(`src/app.py`).  The Python code is shallowly embedded: Python dicts become
association lists, `datetime` values become a calendar-field structure,
the JSON/base64 text layer is modelled at the level of the structured
values it transports, and the mutable `st.session_state` becomes an
explicit `AppState` record threaded through each operation.
-/

namespace Triage

/-- Python `datetime` value: calendar fields, microseconds (emitted by
`datetime.isoformat` when nonzero), and the UTC offset — absent for a
naive datetime (`hasOff = false`), otherwise a signed `HH:MM` offset.
The app itself only constructs aware `+08:00` datetimes via
`datetime.now(LOCAL_TZ)`, but `datetime.fromisoformat` can hand the
loader naive or negative-offset values, so the model carries them. -/
structure DT where
  year : Nat
  month : Nat
  day : Nat
  hour : Nat
  minute : Nat
  second : Nat
  micro : Nat
  hasOff : Bool
  offNeg : Bool
  offH : Nat
  offM : Nat
deriving DecidableEq, Repr

/-- Mixed-radix key giving the chronological order of datetimes that share
the app's single fixed timezone offset. -/
def DT.key (d : DT) : Nat :=
  ((((((d.year * 13 + d.month) * 32 + d.day) * 24 + d.hour) * 60 + d.minute) * 60
      + d.second) * 1000000 + d.micro)

/-- Chronological order on app datetimes (all carry the same fixed offset,
so comparing calendar fields is comparing instants). -/
def DT.le (a b : DT) : Prop := a.key ≤ b.key

instance : DecidableRel DT.le := fun a b => inferInstanceAs (Decidable (a.key ≤ b.key))

/-- Field ranges accepted by `datetime`: these are the values the app can
actually construct and that `datetime.fromisoformat` accepts back.  A
naive datetime carries the default sign and zero offset fields, so that
each datetime has one isoformat rendering. -/
def DT.valid (d : DT) : Prop :=
  1 ≤ d.year ∧ d.year ≤ 9999 ∧ 1 ≤ d.month ∧ d.month ≤ 12 ∧ 1 ≤ d.day ∧ d.day ≤ 31 ∧
  d.hour ≤ 23 ∧ d.minute ≤ 59 ∧ d.second ≤ 59 ∧ d.micro ≤ 999999 ∧
  d.offH ≤ 23 ∧ d.offM ≤ 59 ∧
  (d.hasOff = false → d.offNeg = false ∧ d.offH = 0 ∧ d.offM = 0)

instance (d : DT) : Decidable d.valid := by unfold DT.valid; infer_instance

/-- Decimal digit character for a single digit value. -/
def digitChar (n : Nat) : Char :=
  if n = 0 then '0' else if n = 1 then '1' else if n = 2 then '2' else if n = 3 then '3'
  else if n = 4 then '4' else if n = 5 then '5' else if n = 6 then '6' else if n = 7 then '7'
  else if n = 8 then '8' else '9'

/-- Two-digit zero-padded decimal rendering (for values below 100). -/
def pad2 (n : Nat) : List Char := [digitChar (n / 10), digitChar (n % 10)]

/-- Four-digit zero-padded decimal rendering (for values below 10000). -/
def pad4 (n : Nat) : List Char := pad2 (n / 100) ++ pad2 (n % 100)

/-- Six-digit zero-padded decimal rendering (for values below 1000000). -/
def pad6 (n : Nat) : List Char := pad2 (n / 10000) ++ (pad2 (n / 100 % 100) ++ pad2 (n % 100))

/-- Character list of `datetime.isoformat` output:
`YYYY-MM-DDTHH:MM:SS[.ffffff][(+|-)HH:MM]`, with the fractional part
omitted exactly when the microsecond field is zero and the offset part
omitted for naive datetimes (Python's behaviour, for the whole-minute
offsets the app's datetimes carry). -/
def isoChars (d : DT) : List Char :=
  pad4 d.year ++ ('-' :: (pad2 d.month ++ ('-' :: (pad2 d.day ++
  ('T' :: (pad2 d.hour ++ (':' :: (pad2 d.minute ++ (':' :: (pad2 d.second ++
  ((if d.micro = 0 then [] else '.' :: pad6 d.micro) ++
  (if d.hasOff then
    (if d.offNeg then '-' else '+') :: (pad2 d.offH ++ (':' :: pad2 d.offM))
  else []))))))))))))

/-- Model of `datetime.isoformat` for the app's timezone-aware datetimes. -/
def isoformat (d : DT) : String := String.mk (isoChars d)

/-- Value of a decimal digit character, `none` on a non-digit. -/
def readDigit (c : Char) : Option Nat :=
  if c.isDigit then some (c.toNat - 48) else none

/-- Read exactly two decimal digits. -/
def read2 : List Char → Option (Nat × List Char)
  | c1 :: c2 :: r =>
    match readDigit c1, readDigit c2 with
    | some a, some b => some (10 * a + b, r)
    | _, _ => none
  | _ => none

/-- Read exactly four decimal digits. -/
def read4 (l : List Char) : Option (Nat × List Char) :=
  match read2 l with
  | some (a, r) =>
    match read2 r with
    | some (b, r2) => some (100 * a + b, r2)
    | none => none
  | none => none

/-- Leading digits of a fractional part, consumed greedily: the first six
digits give the microsecond value (further digits are consumed and
dropped, as `fromisoformat` truncates them); `k` is the remaining
significant-digit capacity. -/
def readFracCore (k acc : Nat) : List Char → Nat × List Char
  | [] => (acc * 10 ^ k, [])
  | c :: r =>
    if c.isDigit then
      match k with
      | 0 => readFracCore 0 acc r
      | k2 + 1 => readFracCore k2 (acc * 10 + (c.toNat - 48)) r
    else (acc * 10 ^ k, c :: r)

/-- Optional fractional-seconds part: a `.` or `,` separator followed by
one or more digits (valued at microsecond precision, truncating beyond
six digits, as `fromisoformat` does), or nothing (microseconds 0). -/
def readFrac : List Char → Option (Nat × List Char)
  | '.' :: c :: r => if c.isDigit then some (readFracCore 6 0 (c :: r)) else none
  | ',' :: c :: r => if c.isDigit then some (readFracCore 6 0 (c :: r)) else none
  | '.' :: [] => none
  | ',' :: [] => none
  | r => some (0, r)

/-- Date part `YYYY-MM-DD` of the ISO format. -/
def readDate (l : List Char) : Option (Nat × Nat × Nat × List Char) :=
  match read4 l with
  | none => none
  | some (y, r1) =>
    match r1 with
    | '-' :: r2 =>
      match read2 r2 with
      | none => none
      | some (mo, r3) =>
        match r3 with
        | '-' :: r4 =>
          match read2 r4 with
          | none => none
          | some (dy, r5) => some (y, mo, dy, r5)
        | _ => none
    | _ => none

/-- Time part of the ISO format: `HH`, `HH:MM` or `HH:MM:SS` (missing
components default to zero, as in `fromisoformat`). -/
def readTime (l : List Char) : Option (Nat × Nat × Nat × List Char) :=
  match read2 l with
  | none => none
  | some (h, r1) =>
    match r1 with
    | ':' :: r2 =>
      match read2 r2 with
      | none => none
      | some (mi, r3) =>
        match r3 with
        | ':' :: r4 =>
          match read2 r4 with
          | none => none
          | some (s, r5) => some (h, mi, s, r5)
        | _ => some (h, mi, 0, r3)
    | _ => some (h, 0, 0, r1)

/-- Body of a signed offset: `HH`, `HHMM`, `HH:MM`, `HH:MM:SS` or
`HH:MM:SS.f` (the seconds and fraction of an offset are accepted and
dropped; the app's timezones are whole-minute). -/
def readOffBody (neg : Bool) (l : List Char) :
    Option (Bool × Bool × Nat × Nat × List Char) :=
  match read2 l with
  | none => none
  | some (oh, r1) =>
    match r1 with
    | ':' :: r2 =>
      match read2 r2 with
      | none => none
      | some (om, r3) =>
        match r3 with
        | ':' :: r4 =>
          match read2 r4 with
          | none => none
          | some (_, r5) =>
            match readFrac r5 with
            | some (_, r6) => some (true, neg, oh, om, r6)
            | none => none
        | _ =>
          match readFrac r3 with
          | some (_, r4) => some (true, neg, oh, om, r4)
          | none => none
    | _ =>
      match read2 r1 with
      | some (om, r2) => some (true, neg, oh, om, r2)
      | none => some (true, neg, oh, 0, r1)

/-- Optional offset part of the ISO format: absent (naive datetime) or a
`+`/`-` sign followed by an offset body. -/
def readOff : List Char → Option (Bool × Bool × Nat × Nat × List Char)
  | '+' :: r => readOffBody false r
  | '-' :: r => readOffBody true r
  | r => some (false, false, 0, 0, r)

/-- Model of `datetime.fromisoformat` on the strings the loader can feed
it: dash-separated date, `T` separator, time with optional minutes,
seconds and 1-or-more-digit fraction (`.` or `,`), and an optional
signed offset, with `datetime`'s field-range validation.  This covers
in particular everything `datetime.isoformat` can emit — the only
inputs on which the round-trip development evaluates it.  The real
function additionally accepts forms no theorem here depends on
(compressed `YYYYMMDD` dates, ISO week dates, fractions attached to
hours or minutes, lowercase `t`): the string-safety hypothesis of the
round-trip theorem is stated on the loader's own heuristic, not on this
function's rejection. -/
def parseIsoChars (l : List Char) : Option DT :=
  match readDate l with
  | none => none
  | some (y, mo, dy, r1) =>
    match r1 with
    | 'T' :: r2 =>
      match readTime r2 with
      | none => none
      | some (h, mi, s, r3) =>
        match readFrac r3 with
        | none => none
        | some (us, r4) =>
          match readOff r4 with
          | none => none
          | some (hasOff, neg, oh, om, r5) =>
            let d : DT := ⟨y, mo, dy, h, mi, s, us, hasOff, neg, oh, om⟩
            if r5 = [] ∧ d.valid then some d else none
    | _ => none

/-- The first character of the list, when present, is not a digit (the
shape of the input left after a maximal digit run). -/
def headNonDigit : List Char → Bool
  | [] => true
  | c :: _ => !c.isDigit

/-- Membership test on character lists, modelling Python's `in` on strings. -/
def hasChar (c : Char) : List Char → Bool
  | [] => false
  | d :: r => d == c || hasChar c r

/-- Model of `obj.replace('Z', '+00:00')` applied before parsing in
`parse_datetime_in_dict`. -/
def replaceZ : List Char → List Char
  | [] => []
  | c :: r =>
    if c = 'Z' then '+' :: '0' :: '0' :: ':' :: '0' :: '0' :: replaceZ r
    else c :: replaceZ r

/-- The string branch of `parse_datetime_in_dict`: the quick heuristic
(`'T' in obj and ('-' in obj or ':' in obj)`) followed by
`datetime.fromisoformat(obj.replace('Z', '+00:00'))`, with a failed parse
leaving the string as it was (`none` here). -/
def tryParseIso (s : String) : Option DT :=
  let l := s.toList
  if hasChar 'T' l && (hasChar '-' l || hasChar ':' l) then
    parseIsoChars (replaceZ l)
  else none

mutual
/-- Structured JSON-like value: the data transported by the persistence
layer.  `dt` is a datetime held in memory (what `DateTimeEncoder` meets),
`str`/`num`/`bool`/`null`/`arr`/`obj` mirror the JSON value kinds the
conversation collection is built from (numbers are kept abstract as
integers; the claims never inspect them). -/
inductive JVal : Type where
  | null : JVal
  | bool : Bool → JVal
  | num : Int → JVal
  | str : String → JVal
  | dt : DT → JVal
  | arr : JList → JVal
  | obj : JFields → JVal

/-- List of JSON values. -/
inductive JList : Type where
  | nil : JList
  | cons : JVal → JList → JList

/-- Insertion-ordered fields of a JSON object (Python dicts preserve
insertion order, and `json.dumps`/`json.loads` keep it). -/
inductive JFields : Type where
  | nil : JFields
  | cons : String → JVal → JFields → JFields
end

deriving instance DecidableEq for JVal, JList, JFields

mutual
/-- Structural content of `json.dumps(..., cls=DateTimeEncoder)`: every
datetime is replaced by its `isoformat` string; everything else is kept
(JSON text serialization of the other value kinds is faithful). -/
def encodeVal : JVal → JVal
  | .dt d => .str (isoformat d)
  | .arr xs => .arr (encodeList xs)
  | .obj fs => .obj (encodeFields fs)
  | .null => .null
  | .bool b => .bool b
  | .num n => .num n
  | .str s => .str s

/-- `encodeVal` on each element of a list. -/
def encodeList : JList → JList
  | .nil => .nil
  | .cons v tl => .cons (encodeVal v) (encodeList tl)

/-- `encodeVal` on each field value of an object (keys untouched). -/
def encodeFields : JFields → JFields
  | .nil => .nil
  | .cons k v tl => .cons k (encodeVal v) (encodeFields tl)
end

mutual
/-- Embedding of `parse_datetime_in_dict` (app.py lines 217-232):
recursively walks the loaded JSON value and replaces every string that
passes the ISO-datetime heuristic by the parsed datetime; dict keys are
not touched, non-string leaves are returned unchanged. -/
def parse_datetime_in_dict : JVal → JVal
  | .str s =>
    match tryParseIso s with
    | some d => .dt d
    | none => .str s
  | .arr xs => .arr (parseDtList xs)
  | .obj fs => .obj (parseDtFields fs)
  | .null => .null
  | .bool b => .bool b
  | .num n => .num n
  | .dt d => .dt d

/-- `parse_datetime_in_dict` on each element of a list. -/
def parseDtList : JList → JList
  | .nil => .nil
  | .cons v tl => .cons (parse_datetime_in_dict v) (parseDtList tl)

/-- `parse_datetime_in_dict` on each field value of an object. -/
def parseDtFields : JFields → JFields
  | .nil => .nil
  | .cons k v tl => .cons k (parse_datetime_in_dict v) (parseDtFields tl)
end

mutual
/-- Every datetime stored in the value has fields in the ranges `datetime`
itself enforces (always true of values the app builds). -/
def dtsValidV : JVal → Bool
  | .dt d => decide d.valid
  | .arr xs => dtsValidL xs
  | .obj fs => dtsValidF fs
  | _ => true

/-- `dtsValidV` over a list. -/
def dtsValidL : JList → Bool
  | .nil => true
  | .cons v tl => dtsValidV v && dtsValidL tl

/-- `dtsValidV` over object fields. -/
def dtsValidF : JFields → Bool
  | .nil => true
  | .cons _ v tl => dtsValidV v && dtsValidF tl
end

mutual
/-- No plain string anywhere in the value triggers the loader's quick
datetime heuristic (`'T' in obj and ('-' in obj or ':' in obj)`,
app.py line 227).  A string failing the heuristic is never handed to
`datetime.fromisoformat` at all, so this is a string-safety condition
for the loader that does not depend on which inputs that library
function accepts (its acceptance set varies across Python versions). -/
def strPlainV : JVal → Bool
  | .str s =>
    !(hasChar 'T' s.toList && (hasChar '-' s.toList || hasChar ':' s.toList))
  | .arr xs => strPlainL xs
  | .obj fs => strPlainF fs
  | _ => true

/-- `strPlainV` over a list. -/
def strPlainL : JList → Bool
  | .nil => true
  | .cons v tl => strPlainV v && strPlainL tl

/-- `strPlainV` over object fields. -/
def strPlainF : JFields → Bool
  | .nil => true
  | .cons _ v tl => strPlainV v && strPlainF tl
end

/-- Embedding of `save_conversations_to_storage` (app.py lines 189-200):
the conversation collection is serialized with `DateTimeEncoder`,
base64-encoded and written to the `conv` query param.  The base64/JSON
text layer is an inverse pair, so the stored blob is modelled by the
structural content it carries. -/
def save_conversations_to_storage (conversations : JVal) : JVal :=
  encodeVal conversations

/-- What the loader can find in the `conv` query param slot: no key at
all, a blob on which base64/JSON decoding raises, or a successfully
decoded JSON value. -/
inductive LoadChannel : Type where
  | missing : LoadChannel
  | undecodable : LoadChannel
  | stored : JVal → LoadChannel
deriving DecidableEq

/-- Embedding of `load_conversations_from_storage` (app.py lines
202-215): a missing `conv` query param falls through to `return {}`, a
decoding exception is swallowed by the bare `except` and also yields
`{}`, and a decoded value is walked by `parse_datetime_in_dict`. -/
def load_conversations_from_storage : LoadChannel → JVal
  | .missing => .obj .nil
  | .undecodable => .obj .nil
  | .stored v => parse_datetime_in_dict v

/-- A non-empty (populated) conversation collection: a JSON object with at
least one entry. -/
def isPopulatedObj : JVal → Bool
  | .obj (.cons _ _ _) => true
  | _ => false

/-- Concrete datetime used in witnesses and counterexamples (aware,
`+08:00`, as the app constructs them). -/
def dtA : DT := ⟨2024, 5, 6, 7, 8, 9, 0, true, false, 8, 0⟩

/-- Second concrete datetime (later than `dtA`). -/
def dtB : DT := ⟨2024, 5, 7, 7, 8, 9, 0, true, false, 8, 0⟩

/-- Populated collection whose only string fields are ordinary text: one
conversation with an id, a title, a timestamp and one message. -/
def wellBehavedCollection : JVal :=
  .obj (.cons "conv1"
    (.obj (.cons "id" (.str "conv1")
      (.cons "session_id" (.str "abc-123")
      (.cons "title" (.str "sore throat")
      (.cons "messages"
        (.arr (.cons
          (.obj (.cons "role" (.str "assistant")
            (.cons "content" (.str "Hello, how can I help?")
            (.cons "timestamp" (.dt dtA)
            (.cons "latency" .null .nil)))))
          .nil))
      (.cons "created_at" (.dt dtA)
      (.cons "updated_at" (.dt dtB)
      (.cons "state" (.obj .nil)
      (.cons "summary" (.str "")
      (.cons "assessment_state" (.obj .nil) .nil))))))))))
    .nil)

/-- Populated collection in which one message content is itself an
ISO-datetime-shaped string. -/
def datetimeStringCollection : JVal :=
  .obj (.cons "conv1"
    (.obj (.cons "id" (.str "conv1")
      (.cons "title" (.str "note")
      (.cons "messages"
        (.arr (.cons
          (.obj (.cons "role" (.str "user")
            (.cons "content" (.str "2021-03-04T05:06:07+08:00") .nil)))
          .nil))
      (.cons "created_at" (.dt dtA) .nil)))))
    .nil)

/-- Assessment-state mapping: the `custom_outputs` dictionary the agent
returns, kept as insertion-ordered string-keyed fields of JSON values. -/
def AState : Type := List (String × JVal)

instance : DecidableEq AState := inferInstanceAs (DecidableEq (List (String × JVal)))

/-- Python `dict` lookup on an insertion-ordered association list. -/
def dictFind {α : Type} (k : String) : List (String × α) → Option α
  | [] => none
  | (k2, v) :: r => if k2 = k then some v else dictFind k r

/-- Python `dict` assignment: replaces the value of an existing key in
place, appends a new key at the end. -/
def dictSet {α : Type} (k : String) (v : α) : List (String × α) → List (String × α)
  | [] => [(k, v)]
  | (k2, w) :: r => if k2 = k then (k2, v) :: r else (k2, w) :: dictSet k v r

/-- Python `del dict[k]`: removes the entry with the given key. -/
def dictErase {α : Type} (k : String) : List (String × α) → List (String × α)
  | [] => []
  | (k2, v) :: r => if k2 = k then r else (k2, v) :: dictErase k r

/-- Chat message record: role, content, timestamp and the optional
latency attached to live assistant replies (a float in the source,
abstracted as an integer payload the claims never inspect). -/
structure Msg where
  role : String
  content : String
  timestamp : DT
  latency : Option Int
deriving DecidableEq, Repr

/-- Conversation record exactly as `create_new_conversation` builds it.
The live assessment state is the `state` key (the key `process_response`
writes and the sidebar reads); `assessment_state` is the vestigial
sibling key the source also creates. -/
structure Conv where
  id : String
  session_id : String
  title : String
  messages : List Msg
  created_at : DT
  updated_at : DT
  state : AState
  summary : String
  assessment_state : AState
deriving DecidableEq

/-- The slice of `st.session_state` the conversation-store operations
touch: the conversation dict, the current-conversation pointer, the
session-level assessment state, plus counters recording how many
`st.warning` diagnostics (for a missing `custom_outputs`) and how many
`save_conversations_to_storage` calls the operations performed. -/
structure AppState where
  conversations : List (String × Conv)
  current_conversation_id : Option String
  assessment_state : AState
  diagnostics : Nat
  saves : Nat
deriving DecidableEq

/-- Greeting seeded into every new conversation (app.py line 701). -/
def initial_message : String :=
  "Hi, I'm your AI Triage Chatbot. I'm here to discuss your symptoms and help guide you to the next appropriate care option. Could you please describe any symptoms you are experiencing?"

/-- Embedding of `create_new_conversation` (app.py lines 697-723): fresh
conversation id and transport session id are passed in (the source draws
them from `uuid.uuid4()`), as is the current time. -/
def create_new_conversation (conversation_id session_id : String) (now : DT)
    (s : AppState) : AppState :=
  let conv : Conv :=
    { id := conversation_id
      session_id := session_id
      title := "Conversation " ++ toString (s.conversations.length + 1)
      messages := [{ role := "assistant", content := initial_message,
                     timestamp := now, latency := none }]
      created_at := now
      updated_at := now
      state := []
      summary := ""
      assessment_state := [] }
  { s with
    conversations := dictSet conversation_id conv s.conversations
    current_conversation_id := some conversation_id
    assessment_state := []
    saves := s.saves + 1 }

/-- Embedding of `delete_conversation` (app.py lines 739-748). -/
def delete_conversation (conversation_id : String) (s : AppState) : AppState :=
  if (dictFind conversation_id s.conversations).isSome then
    let convs := dictErase conversation_id s.conversations
    if s.current_conversation_id = some conversation_id then
      { s with conversations := convs, current_conversation_id := none,
               assessment_state := [], saves := s.saves + 1 }
    else
      { s with conversations := convs, saves := s.saves + 1 }
  else s

/-- Tail of `init_session_state` (app.py lines 268-270): auto-create a
first conversation when none exist.  This runs at the start of every
interaction cycle. -/
def init_autocreate (conversation_id session_id : String) (now : DT)
    (s : AppState) : AppState :=
  if s.conversations = [] then
    create_new_conversation conversation_id session_id now s
  else s

/-- Embedding of `update_conversation_title` (app.py lines 731-737). -/
def update_conversation_title (conversation_id first_message : String)
    (s : AppState) : AppState :=
  match dictFind conversation_id s.conversations with
  | some conv =>
    let title :=
      if first_message.length > 50 then first_message.take 50 ++ "..."
      else first_message
    { s with
      conversations := dictSet conversation_id { conv with title := title } s.conversations
      saves := s.saves + 1 }
  | none => s

/-- The chat-input handler of `render_mobile_chat` before the API call
(app.py lines 1061-1074): append the user message to the current
conversation, derive the title if it is the first user-authored message,
save.  A missing current conversation is a no-op (the source returns
before reaching this code). -/
def submit_user_message (prompt : String) (now : DT) (s : AppState) : AppState :=
  match s.current_conversation_id with
  | none => s
  | some cid =>
    match dictFind cid s.conversations with
    | none => s
    | some conv =>
      let conv2 := { conv with
        messages := conv.messages ++
          [{ role := "user", content := prompt, timestamp := now, latency := none }] }
      let s1 := { s with conversations := dictSet cid conv2 s.conversations }
      let s2 :=
        if (conv2.messages.filter (fun m => m.role == "user")).length = 1 then
          update_conversation_title cid prompt s1
        else s1
      { s2 with saves := s2.saves + 1 }

/-- One entry of the reply's `messages` list: a dict whose `content` key
may be missing (the source reads it with `.get("content", "")`). -/
structure RMsg where
  content : Option String
deriving DecidableEq

/-- Agent reply as `process_response` consumes it: the (possibly empty)
message list, the optional structured `custom_outputs`, and the measured
latency `call_api` attached. -/
structure Reply where
  messages : List RMsg
  custom_outputs : Option AState
  latency : Option Int
deriving DecidableEq

/-- `response["messages"][0].get("content", "")` when the list is
non-empty. -/
def first_content (r : Reply) : Option String :=
  r.messages.head?.map (fun m => m.content.getD "")

/-- Python `str.lower()` (character-wise lowercasing). -/
def pyLower (l : List Char) : List Char := l.map Char.toLower

/-- The `result_status` computation of `process_response` (app.py line
787): a missing or `None` result reads as "pending", a string result is
lowercased after the `or ""` falsy guard.  (A non-string, non-null result
value would raise in the source; the claims only concern string-or-null
results.) -/
def resultStatus (st : AState) : String :=
  match dictFind "result" st with
  | some (.str s) => String.mk (pyLower s.toList)
  | some .null => "pending"
  | none => "pending"
  | some _ => "pending"

/-- The `result` value of an assessment mapping is a string, null or
absent — the domain on which the source's `result_status` line runs
without raising. -/
def result_well_typed : Option AState → Bool
  | none => true
  | some a =>
    match dictFind "result" a with
    | some (.str _) => true
    | some .null => true
    | none => true
    | some _ => false

/-- The `custom_outputs` projection of `process_response` (app.py lines
778-784): replace the conversation's live state wholesale when the field
is present, leave it untouched otherwise. -/
def apply_custom_outputs (r : Reply) (conv : Conv) : Conv :=
  match r.custom_outputs with
  | some a => { conv with state := a }
  | none => conv

/-- The auto-summary trigger condition of `process_response` (app.py line
788): a truthy result status that is not "pending" and a falsy recorded
summary. -/
def summary_guard (conv : Conv) : Bool :=
  let rs := resultStatus conv.state
  rs != "" && rs != "pending" && conv.summary == ""

/-- Embedding of `process_response` (app.py lines 750-801).  `response`
is the projected agent reply (`none` models the `if not response` early
return), `summary_response` is the outcome of the auto-summary
`call_api` issued when the trigger fires (`none`: that call failed),
`now`/`now2` are the two `datetime.now` reads, and the flag mirrors the
`summary=` keyword.  Returns the updated state and whether an
auto-summary request was issued. -/
def process_response (response : Option Reply) (conversation_id : String)
    (summary_response : Option Reply) (now now2 : DT) (summary : Bool)
    (s : AppState) : AppState × Bool :=
  match response with
  | none => (s, false)
  | some r =>
    match dictFind conversation_id s.conversations with
    | none => (s, false)
    | some conversation =>
      let assistant_message :=
        match r.messages.head? with
        | some m => m.content.getD ""
        | none => "I apologize, but I couldn't process that response."
      if summary then
        ({ s with
           conversations :=
             dictSet conversation_id { conversation with summary := assistant_message }
               s.conversations
           saves := s.saves + 1 }, false)
      else
        let conv1 := { conversation with
          messages := conversation.messages ++
            [{ role := "assistant", content := assistant_message,
               timestamp := now, latency := r.latency }] }
        let conv2 := apply_custom_outputs r conv1
        let sess2 :=
          match r.custom_outputs with
          | some a => a
          | none => s.assessment_state
        let diag2 :=
          match r.custom_outputs with
          | some _ => s.diagnostics
          | none => s.diagnostics + 1
        let fire := summary_guard conv2
        let conv3 :=
          if fire then
            match summary_response with
            | some r2 => { conv2 with summary := (first_content r2).getD "" }
            | none => conv2
          else conv2
        let conv4 := { conv3 with updated_at := now2 }
        ({ s with
           conversations := dictSet conversation_id conv4 s.conversations
           assessment_state := sess2
           diagnostics := diag2
           saves := s.saves + 1 }, fire)

/-- One reply-processing step: the projected non-summary reply, the
outcome of the auto-summary call if one is issued, and the two clock
reads of that cycle. -/
structure ReplyStep where
  reply : Reply
  oracle : Option Reply
  now : DT
  now2 : DT
deriving DecidableEq

/-- Process a sequence of non-summary replies for one conversation,
counting how many auto-summary requests are issued. -/
def run_replies (conversation_id : String) (steps : List ReplyStep)
    (s : AppState) : AppState × Nat :=
  match steps with
  | [] => (s, 0)
  | st :: rest =>
    let r := process_response (some st.reply) conversation_id st.oracle st.now st.now2
      false s
    let t := run_replies conversation_id rest r.1
    (t.1, (if r.2 then 1 else 0) + t.2)

/-- An issued auto-summary call that succeeds with non-empty content. -/
def oracle_nonempty : Option Reply → Bool
  | some r => (first_content r).getD "" != ""
  | none => false

/-- No conversation stored under this id has an empty summary (vacuously
true when the id is absent): once this holds, the auto-summary trigger
can never fire again. -/
def summary_safe (conversation_id : String) (s : AppState) : Prop :=
  ∀ c, dictFind conversation_id s.conversations = some c → c.summary ≠ ""

/-- Every stored conversation satisfies `updated_at >= created_at`. -/
def ts_invariant (s : AppState) : Prop :=
  ∀ k c, dictFind k s.conversations = some c → DT.le c.created_at c.updated_at

/-- Stored conversation record as `migrate_conversations` sees it: any of
the schema fields may be missing (an older record). -/
structure StoredConv where
  created_at : Option DT
  updated_at : Option DT
  title : Option String
  messages : Option (List Msg)
  assessment_state : Option AState
  session_id : Option String
  state : Option AState
  summary : Option String
deriving DecidableEq

/-- Per-record body of `migrate_conversations` (app.py lines 277-316),
written in the closed form the sequential `if 'x' not in conv` blocks
compute: `created_at` defaults to now; `updated_at` to the (just filled)
`created_at`; `title` to a placeholder built from the conversation id;
`messages`, `assessment_state` to empty containers; `session_id` to a
fresh uuid (passed in); `state` to the (just filled) `assessment_state`;
`summary` to the empty string. -/
def migrateConv (now : DT) (session_id : String) (conv_id : String)
    (c : StoredConv) : StoredConv :=
  { created_at := some (c.created_at.getD now)
    updated_at := some (c.updated_at.getD (c.created_at.getD now))
    title := some (c.title.getD ("Conversation " ++ conv_id.take 8))
    messages := some (c.messages.getD [])
    assessment_state := some (c.assessment_state.getD [])
    session_id := some (c.session_id.getD session_id)
    state := some (c.state.getD (c.assessment_state.getD []))
    summary := some (c.summary.getD "") }

/-- Embedding of `migrate_conversations` (app.py lines 272-320) over the
stored collection; `session_ids` supplies the fresh uuid drawn for each
conversation whose transport session id is missing. -/
def migrate_conversations (now : DT) (session_ids : String → String)
    (col : List (String × StoredConv)) : List (String × StoredConv) :=
  col.map (fun p => (p.1, migrateConv now (session_ids p.1) p.1 p.2))

/-- Message used in concrete witness states. -/
def msgA : Msg := { role := "assistant", content := "hello", timestamp := dtA, latency := none }

/-- Concrete conversation "a" (updated at `dtA`). -/
def convA : Conv :=
  { id := "a", session_id := "sa", title := "A", messages := [msgA],
    created_at := dtA, updated_at := dtA, state := [], summary := "",
    assessment_state := [] }

/-- Concrete conversation "b" (updated later, at `dtB`). -/
def convB : Conv :=
  { id := "b", session_id := "sb", title := "B", messages := [msgA],
    created_at := dtA, updated_at := dtB, state := [], summary := "",
    assessment_state := [] }

/-- State with two conversations, the current one being "a". -/
def twoConvState : AppState :=
  { conversations := [("a", convA), ("b", convB)],
    current_conversation_id := some "a", assessment_state := [],
    diagnostics := 0, saves := 0 }

/-- State with a single conversation "a", which is current. -/
def oneConvState : AppState :=
  { conversations := [("a", convA)], current_conversation_id := some "a",
    assessment_state := [], diagnostics := 0, saves := 0 }

/-- Agent reply whose `custom_outputs.result` is "suitable". -/
def suitableReply : Reply :=
  { messages := [{ content := some "ok" }],
    custom_outputs := some [("result", .str "suitable")], latency := none }

/-- Summary-call outcome whose returned content is the empty string. -/
def emptySummaryReply : Reply :=
  { messages := [{ content := some "" }], custom_outputs := none, latency := none }

/-- Reply step that triggers the auto-summary guard but whose summary
call comes back with empty content. -/
def emptySummaryStep : ReplyStep :=
  { reply := suitableReply, oracle := some emptySummaryReply, now := dtA, now2 := dtB }

/-- Legacy stored record missing `created_at` but carrying an (old)
`updated_at`. -/
def legacyStored : StoredConv :=
  { created_at := none, updated_at := some dtA, title := some "x",
    messages := some [], assessment_state := some [], session_id := some "s",
    state := some [], summary := some "" }

/-- Agent reply carrying no `custom_outputs` field. -/
def noOutputsReply : Reply :=
  { messages := [{ content := some "ok" }], custom_outputs := none, latency := none }

/-- Reply step whose auto-summary call succeeds with non-empty content. -/
def goodSummaryStep : ReplyStep :=
  { reply := suitableReply
    oracle := some { messages := [{ content := some "patient summary" }],
                     custom_outputs := none, latency := none }
    now := dtA
    now2 := dtB }

/-- Python `str.strip()` on the left side. -/
def pyStripLeft (l : List Char) : List Char := l.dropWhile (fun c => c.isWhitespace)

/-- Python `str.strip()`: drop whitespace from both ends. -/
def pyStrip (l : List Char) : List Char :=
  ((pyStripLeft l).reverse.dropWhile (fun c => c.isWhitespace)).reverse

/-- Python `str.split(sep)` with a single-character separator and no
maxsplit: always returns at least one (possibly empty) group. -/
def pySplit (sep : Char) : List Char → List (List Char)
  | [] => [[]]
  | c :: r =>
    match pySplit sep r with
    | [] => [[]]
    | g :: gs => if c = sep then [] :: g :: gs else (c :: g) :: gs

/-- Python `str.startswith('@')`. -/
def startsWithAt (l : List Char) : Bool :=
  match l with
  | c :: _ => c == '@'
  | [] => false

/-- The `email_domain` expression of `is_email_authorized` (app.py line
674): `'@' + email.split('@')[1] if '@' in email else ''`. -/
def emailDomain (e : List Char) : List Char :=
  if hasChar '@' e then '@' :: (pySplit '@' e).getD 1 [] else []

/-- Embedding of `is_email_authorized` (app.py lines 661-678): trim and
lowercase both sides; accept on exact equality, or, for an entry starting
with `@`, on equality of the candidate's domain part with the entry. -/
def is_email_authorized (email : String) (authorized_list : List String) : Bool :=
  let e := pyLower (pyStrip email.toList)
  authorized_list.any (fun entry =>
    let a := pyLower (pyStrip entry.toList)
    e == a || (startsWithAt a && (emailDomain e == a)))

/-- Everything after the first `@` of the candidate (empty when there is
no `@`): the candidate's domain portion. -/
def afterFirstAt : List Char → List Char
  | [] => []
  | c :: r => if c = '@' then r else afterFirstAt r

/-- Modelled from the spec (§4.1 matching rule): trim and lowercase both
sides; an entry starting with `@` matches exactly when the candidate's
full domain equals the entry with the leading `@` stripped; any other
entry matches only on full equality.  Comparison point for the C4
refinement. -/
def authorizeSpec (email : String) (allow_list : List String) : Bool :=
  let e := pyLower (pyStrip email.toList)
  allow_list.any (fun entry =>
    let a := pyLower (pyStrip entry.toList)
    if startsWithAt a then hasChar '@' e && (afterFirstAt e == a.tail)
    else e == a)

/-- Eighty-character first message (for the C7 witness). -/
def prompt80 : String :=
  "aaaaaaaaaaaaaaaaaaaaaaaaaaaaaaaaaaaaaaaaaaaaaaaaaaaaaaaaaaaaaaaaaaaaaaaaaaaaaaaa"

/-- Thirty-character first message (for the C7 witness). -/
def prompt30 : String := "aaaaaaaaaaaaaaaaaaaaaaaaaaaaaa"

theorem DT.le_refl (a : DT) : DT.le a a := Nat.le_refl _

theorem readDigit_digitChar (n : Nat) (h : n < 10) : readDigit (digitChar n) = some n := by
  interval_cases n <;> decide

theorem read2_pad2 (n : Nat) (r : List Char) (h : n < 100) :
    read2 (pad2 n ++ r) = some (n, r) := by
  have h1 : n / 10 < 10 := by omega
  have h2 : n % 10 < 10 := by omega
  simp [pad2, read2, readDigit_digitChar _ h1, readDigit_digitChar _ h2]
  omega

theorem read2_pad2_nil (n : Nat) (h : n < 100) : read2 (pad2 n) = some (n, []) := by
  simpa using read2_pad2 n [] h

theorem read4_pad4 (n : Nat) (r : List Char) (h : n < 10000) :
    read4 (pad4 n ++ r) = some (n, r) := by
  have h1 : n / 100 < 100 := by omega
  have h2 : n % 100 < 100 := by omega
  simp [pad4, read4, List.append_assoc, read2_pad2 _ _ h1, read2_pad2 _ _ h2]
  omega

theorem digitChar_isDigit (n : Nat) : (digitChar n).isDigit = true := by
  unfold digitChar
  split_ifs <;> decide

theorem digitChar_val (n : Nat) (h : n < 10) : (digitChar n).toNat - 48 = n := by
  interval_cases n <;> decide

theorem readFracCore_digit (k acc n : Nat) (r : List Char) (hn : n < 10) :
    readFracCore (k + 1) acc (digitChar n :: r) = readFracCore k (acc * 10 + n) r := by
  simp [readFracCore, digitChar_isDigit, digitChar_val n hn]

theorem readFracCore_stop (k acc : Nat) (r : List Char) (hr : headNonDigit r = true) :
    readFracCore k acc r = (acc * 10 ^ k, r) := by
  cases r with
  | nil => simp [readFracCore]
  | cons c r2 =>
    have hc : c.isDigit = false := by simpa [headNonDigit] using hr
    simp [readFracCore, hc]

theorem readFrac_nil : readFrac [] = some (0, []) := rfl

theorem readFrac_plus (r : List Char) : readFrac ('+' :: r) = some (0, '+' :: r) := rfl

theorem readFrac_minus (r : List Char) : readFrac ('-' :: r) = some (0, '-' :: r) := rfl

theorem readFrac_dot_pad6 (us : Nat) (hus : us < 1000000) (r : List Char)
    (hr : headNonDigit r = true) :
    readFrac ('.' :: (pad6 us ++ r)) = some (us, r) := by
  have b1 : us / 10000 / 10 < 10 := by omega
  have b2 : us / 10000 % 10 < 10 := by omega
  have b3 : us / 100 % 100 / 10 < 10 := by omega
  have b4 : us / 100 % 100 % 10 < 10 := by omega
  have b5 : us % 100 / 10 < 10 := by omega
  have b6 : us % 100 % 10 < 10 := by omega
  simp only [pad6, pad2, List.cons_append, List.nil_append, List.append_assoc, readFrac,
    digitChar_isDigit, eq_self_iff_true, if_true]
  rw [show (6 : Nat) = 5 + 1 from rfl, readFracCore_digit _ _ _ _ b1,
    show (5 : Nat) = 4 + 1 from rfl, readFracCore_digit _ _ _ _ b2,
    show (4 : Nat) = 3 + 1 from rfl, readFracCore_digit _ _ _ _ b3,
    show (3 : Nat) = 2 + 1 from rfl, readFracCore_digit _ _ _ _ b4,
    show (2 : Nat) = 1 + 1 from rfl, readFracCore_digit _ _ _ _ b5,
    show (1 : Nat) = 0 + 1 from rfl, readFracCore_digit _ _ _ _ b6,
    readFracCore_stop _ _ _ hr]
  simp only [pow_zero, mul_one, Option.some_inj, Prod.mk.injEq, eq_self_iff_true,
    and_true]
  omega

theorem readDate_pads (y mo dy : Nat) (r : List Char)
    (hy : y < 10000) (hmo : mo < 100) (hdy : dy < 100) :
    readDate (pad4 y ++ ('-' :: (pad2 mo ++ ('-' :: (pad2 dy ++ r))))) =
      some (y, mo, dy, r) := by
  simp only [readDate, read4_pad4 _ _ hy, read2_pad2 _ _ hmo, read2_pad2 _ _ hdy]

theorem readTime_pads (h mi s : Nat) (r : List Char)
    (hh : h < 100) (hmi : mi < 100) (hs : s < 100) :
    readTime (pad2 h ++ (':' :: (pad2 mi ++ (':' :: (pad2 s ++ r))))) =
      some (h, mi, s, r) := by
  simp only [readTime, read2_pad2 _ _ hh, read2_pad2 _ _ hmi, read2_pad2 _ _ hs]

theorem readOff_nil : readOff [] = some (false, false, 0, 0, []) := rfl

theorem readOff_pos (oh om : Nat) (hoh : oh < 100) (hom : om < 100) :
    readOff ('+' :: (pad2 oh ++ (':' :: pad2 om))) = some (true, false, oh, om, []) := by
  simp only [readOff, readOffBody, read2_pad2 _ _ hoh, read2_pad2_nil _ hom, readFrac_nil]

theorem readOff_neg (oh om : Nat) (hoh : oh < 100) (hom : om < 100) :
    readOff ('-' :: (pad2 oh ++ (':' :: pad2 om))) = some (true, true, oh, om, []) := by
  simp only [readOff, readOffBody, read2_pad2 _ _ hoh, read2_pad2_nil _ hom, readFrac_nil]

theorem parseIso_isoChars (d : DT) (h : d.valid) : parseIsoChars (isoChars d) = some d := by
  have hval := h
  obtain ⟨y, mo, dy, hh, mi, ss, us, hasOff, offNeg, oh, om⟩ := d
  have hb : 1 ≤ y ∧ y ≤ 9999 ∧ 1 ≤ mo ∧ mo ≤ 12 ∧ 1 ≤ dy ∧ dy ≤ 31 ∧ hh ≤ 23 ∧
      mi ≤ 59 ∧ ss ≤ 59 ∧ us ≤ 999999 ∧ oh ≤ 23 ∧ om ≤ 59 ∧
      (hasOff = false → offNeg = false ∧ oh = 0 ∧ om = 0) := h
  obtain ⟨h1, h2, h3, h4, h5, h6, h7, h8, h9, h10, h11, h12, h13⟩ := hb
  cases hasOff with
  | false =>
    obtain ⟨hn1, hn2, hn3⟩ := h13 rfl
    subst hn1
    subst hn2
    subst hn3
    by_cases hm : us = 0
    · subst hm
      simp only [isoChars, eq_self_iff_true, if_true, Bool.false_eq_true, if_false,
        List.nil_append]
      simp only [parseIsoChars,
        readDate_pads y mo dy _ (by omega) (by omega) (by omega),
        readTime_pads hh mi ss _ (by omega) (by omega) (by omega),
        readFrac_nil, readOff_nil]
      simp [hval]
    · simp only [isoChars, if_neg hm, Bool.false_eq_true, if_false, List.cons_append]
      simp only [parseIsoChars,
        readDate_pads y mo dy _ (by omega) (by omega) (by omega),
        readTime_pads hh mi ss _ (by omega) (by omega) (by omega),
        readFrac_dot_pad6 us (by omega) [] rfl, readOff_nil]
      simp [hval]
  | true =>
    cases offNeg with
    | false =>
      by_cases hm : us = 0
      · subst hm
        simp only [isoChars, eq_self_iff_true, if_true, Bool.false_eq_true, if_false,
          List.nil_append]
        simp only [parseIsoChars,
          readDate_pads y mo dy _ (by omega) (by omega) (by omega),
          readTime_pads hh mi ss _ (by omega) (by omega) (by omega),
          readFrac_plus, readOff_pos oh om (by omega) (by omega)]
        simp [hval]
      · simp only [isoChars, if_neg hm, eq_self_iff_true, if_true, Bool.false_eq_true,
          if_false, List.cons_append]
        simp only [parseIsoChars,
          readDate_pads y mo dy _ (by omega) (by omega) (by omega),
          readTime_pads hh mi ss _ (by omega) (by omega) (by omega),
          readFrac_dot_pad6 us (by omega) ('+' :: (pad2 oh ++ (':' :: pad2 om))) rfl,
          readOff_pos oh om (by omega) (by omega)]
        simp [hval]
    | true =>
      by_cases hm : us = 0
      · subst hm
        simp only [isoChars, eq_self_iff_true, if_true, List.nil_append]
        simp only [parseIsoChars,
          readDate_pads y mo dy _ (by omega) (by omega) (by omega),
          readTime_pads hh mi ss _ (by omega) (by omega) (by omega),
          readFrac_minus, readOff_neg oh om (by omega) (by omega)]
        simp [hval]
      · simp only [isoChars, if_neg hm, eq_self_iff_true, if_true, List.cons_append]
        simp only [parseIsoChars,
          readDate_pads y mo dy _ (by omega) (by omega) (by omega),
          readTime_pads hh mi ss _ (by omega) (by omega) (by omega),
          readFrac_dot_pad6 us (by omega) ('-' :: (pad2 oh ++ (':' :: pad2 om))) rfl,
          readOff_neg oh om (by omega) (by omega)]
        simp [hval]

theorem hasChar_append (c : Char) (a b : List Char) :
    hasChar c (a ++ b) = (hasChar c a || hasChar c b) := by
  induction a with
  | nil => simp [hasChar]
  | cons x r ih => simp [hasChar, ih, Bool.or_assoc]

theorem digitChar_ne (n : Nat) (c : Char) (hc : c.isDigit = false) : (digitChar n == c) = false := by
  have hd := digitChar_isDigit n
  cases he : digitChar n == c
  · rfl
  · rw [beq_iff_eq] at he
    rw [he, hc] at hd
    simp at hd

theorem hasChar_Z_pad2 (n : Nat) : hasChar 'Z' (pad2 n) = false := by
  simp [pad2, hasChar, digitChar_ne _ 'Z' (by decide)]

theorem hasChar_Z_pad4 (n : Nat) : hasChar 'Z' (pad4 n) = false := by
  simp [pad4, hasChar_append, hasChar_Z_pad2]

theorem hasChar_Z_pad6 (n : Nat) : hasChar 'Z' (pad6 n) = false := by
  simp [pad6, hasChar_append, hasChar_Z_pad2]

theorem hasChar_T_isoChars (d : DT) : hasChar 'T' (isoChars d) = true := by
  simp [isoChars, hasChar_append, hasChar]

theorem hasChar_dash_isoChars (d : DT) : hasChar '-' (isoChars d) = true := by
  simp [isoChars, hasChar_append, hasChar]

theorem digitChar_ne_prop (n : Nat) (c : Char) (hc : c.isDigit = false) :
    ¬ digitChar n = c := by
  intro he
  have hd := digitChar_isDigit n
  rw [he, hc] at hd
  simp at hd

theorem hasChar_Z_isoChars (d : DT) : hasChar 'Z' (isoChars d) = false := by
  have hz : ∀ n : Nat, ¬ digitChar n = 'Z' := fun n => digitChar_ne_prop n 'Z' (by decide)
  cases h2 : d.hasOff <;> cases h3 : d.offNeg <;> by_cases hm : d.micro = 0 <;>
    simp [isoChars, hm, h2, h3, hasChar_append, hasChar, hasChar_Z_pad2, hasChar_Z_pad4,
      hasChar_Z_pad6, hz]

theorem replaceZ_id (l : List Char) (h : hasChar 'Z' l = false) : replaceZ l = l := by
  induction l with
  | nil => rfl
  | cons c r ih =>
    simp only [hasChar, Bool.or_eq_false_iff] at h
    have hcz : ¬ c = 'Z' := by
      intro he; rw [he] at h; simp at h
    simp [replaceZ, hcz, ih h.2]

theorem tryParseIso_isoformat (d : DT) (h : d.valid) : tryParseIso (isoformat d) = some d := by
  have htl : (isoformat d).toList = isoChars d := rfl
  rw [tryParseIso]
  simp only [htl, hasChar_T_isoChars, hasChar_dash_isoChars, Bool.true_and, Bool.true_or,
    if_pos]
  rw [replaceZ_id _ (hasChar_Z_isoChars d), parseIso_isoChars d h]

mutual
theorem decode_encode_val : (v : JVal) → dtsValidV v = true → strPlainV v = true →
    parse_datetime_in_dict (encodeVal v) = v
  | .null, _, _ => rfl
  | .bool b, _, _ => rfl
  | .num n, _, _ => rfl
  | .str s, _, hs => by
      have he : strPlainV (.str s) =
          !(hasChar 'T' s.toList && (hasChar '-' s.toList || hasChar ':' s.toList)) := rfl
      have hg : (hasChar 'T' s.toList &&
          (hasChar '-' s.toList || hasChar ':' s.toList)) = false := by
        cases hX : (hasChar 'T' s.toList && (hasChar '-' s.toList || hasChar ':' s.toList)) with
        | false => rfl
        | true =>
          rw [he, hX] at hs
          exact Bool.noConfusion hs
      have hg2 : ¬ ((hasChar 'T' s.toList &&
          (hasChar '-' s.toList || hasChar ':' s.toList)) = true) := by
        intro hc
        rw [hc] at hg
        exact Bool.noConfusion hg
      have hn : tryParseIso s = none := by
        simp only [tryParseIso]
        rw [if_neg hg2]
      simp [encodeVal, parse_datetime_in_dict, hn]
  | .dt d, hv, _ => by
      have hd : d.valid := by simpa [dtsValidV] using hv
      simp [encodeVal, parse_datetime_in_dict, tryParseIso_isoformat d hd]
  | .arr xs, hv, hs => by
      have h := decode_encode_list xs (by simpa [dtsValidV] using hv)
        (by simpa [strPlainV] using hs)
      simp [encodeVal, parse_datetime_in_dict, h]
  | .obj fs, hv, hs => by
      have h := decode_encode_fields fs (by simpa [dtsValidV] using hv)
        (by simpa [strPlainV] using hs)
      simp [encodeVal, parse_datetime_in_dict, h]

theorem decode_encode_list : (l : JList) → dtsValidL l = true → strPlainL l = true →
    parseDtList (encodeList l) = l
  | .nil, _, _ => rfl
  | .cons v tl, hv, hs => by
      simp only [dtsValidL, Bool.and_eq_true] at hv
      simp only [strPlainL, Bool.and_eq_true] at hs
      simp [encodeList, parseDtList, decode_encode_val v hv.1 hs.1,
        decode_encode_list tl hv.2 hs.2]

theorem decode_encode_fields : (l : JFields) → dtsValidF l = true → strPlainF l = true →
    parseDtFields (encodeFields l) = l
  | .nil, _, _ => rfl
  | .cons k v tl, hv, hs => by
      simp only [dtsValidF, Bool.and_eq_true] at hv
      simp only [strPlainF, Bool.and_eq_true] at hs
      simp [encodeFields, parseDtFields, decode_encode_val v hv.1 hs.1,
        decode_encode_fields tl hv.2 hs.2]
end

/-- C1 (amended): saving and then loading returns the collection
unchanged, field-for-field including every timestamp, for every
collection whose datetimes are well-formed and whose plain string fields
never contain `T` together with `-` or `:` — the loader's own datetime
heuristic (app.py line 227).  A string failing that heuristic is never
handed to `datetime.fromisoformat` by the loader, so this hypothesis is
sound regardless of which string forms that library function accepts.
(The unrestricted claim fails: see `C1_counterexample`.) -/
theorem C1_roundtrip_amended (c : JVal)
    (hdts : dtsValidV c = true) (hstr : strPlainV c = true) :
    load_conversations_from_storage
      (.stored (save_conversations_to_storage c)) = c := by
  simpa [load_conversations_from_storage, save_conversations_to_storage]
    using decode_encode_val c hdts hstr

/-- Witness for C1: a concrete populated collection (one conversation
with a message, timestamps, title) round-trips exactly. -/
theorem C1_roundtrip_witness :
    dtsValidV wellBehavedCollection = true ∧
    strPlainV wellBehavedCollection = true ∧
    load_conversations_from_storage
      (.stored (save_conversations_to_storage wellBehavedCollection)) =
        wellBehavedCollection :=
  ⟨by decide, by decide,
    C1_roundtrip_amended wellBehavedCollection (by decide) (by decide)⟩

/-- C1 counterexample: a populated collection with well-formed datetimes
in which one message content is the string "2021-03-04T05:06:07+08:00";
loading after saving converts that string into a datetime value, so
`load(save(C)) = C` fails for this collection. -/
theorem C1_counterexample :
    isPopulatedObj datetimeStringCollection = true ∧
    dtsValidV datetimeStringCollection = true ∧
    load_conversations_from_storage
      (.stored (save_conversations_to_storage datetimeStringCollection)) ≠
        datetimeStringCollection := by
  refine ⟨rfl, by decide, ?_⟩
  decide

/-- C8: every failing load attempt — the `conv` query param missing, or
its contents undecodable (base64/JSON error) — returns the empty
collection rather than propagating an error. -/
theorem C8_load_failure_empty :
    load_conversations_from_storage .missing = .obj .nil ∧
    load_conversations_from_storage .undecodable = .obj .nil :=
  ⟨rfl, rfl⟩

theorem dictFind_dictSet {α : Type} (k k2 : String) (v : α) (l : List (String × α)) :
    dictFind k2 (dictSet k v l) = if k = k2 then some v else dictFind k2 l := by
  induction l with
  | nil => simp [dictSet, dictFind]
  | cons p r ih =>
    obtain ⟨k3, w⟩ := p
    by_cases h3 : k3 = k
    · subst h3
      by_cases h2 : k3 = k2 <;> simp [dictSet, dictFind, h2]
    · by_cases h2 : k3 = k2
      · subst h2
        have hne : ¬ k = k3 := fun he => h3 he.symm
        simp [dictSet, dictFind, h3, hne]
      · simp [dictSet, dictFind, h3, h2, ih]

theorem dictFind_dictSet_self {α : Type} (k : String) (v : α) (l : List (String × α)) :
    dictFind k (dictSet k v l) = some v := by
  rw [dictFind_dictSet, if_pos rfl]

theorem dictFind_dictErase_other {α : Type} (k k2 : String) (l : List (String × α))
    (h : k2 ≠ k) : dictFind k2 (dictErase k l) = dictFind k2 l := by
  induction l with
  | nil => rfl
  | cons p r ih =>
    obtain ⟨k3, w⟩ := p
    by_cases h3 : k3 = k
    · subst h3
      have hne : ¬ k3 = k2 := fun he => h he.symm
      simp [dictErase, dictFind, hne]
    · by_cases h2 : k3 = k2 <;> simp [dictErase, dictFind, h3, h2, h, ih]

theorem dictFind_eq_none_of_not_mem {α : Type} (k : String) (l : List (String × α))
    (h : k ∉ l.map Prod.fst) : dictFind k l = none := by
  induction l with
  | nil => rfl
  | cons p r ih =>
    obtain ⟨k3, w⟩ := p
    simp only [List.map_cons, List.mem_cons] at h
    push_neg at h
    have hne : ¬ k3 = k := fun he => h.1 he.symm
    simp [dictFind, hne, ih h.2]

theorem dictFind_dictErase_self {α : Type} (k : String) (l : List (String × α))
    (h : (l.map Prod.fst).Nodup) : dictFind k (dictErase k l) = none := by
  induction l with
  | nil => rfl
  | cons p r ih =>
    obtain ⟨k3, w⟩ := p
    simp only [List.map_cons, List.nodup_cons] at h
    simp only [dictErase]
    by_cases h3 : k3 = k
    · subst h3
      rw [if_pos rfl]
      exact dictFind_eq_none_of_not_mem _ _ h.1
    · rw [if_neg h3]
      simp [dictFind, h3, ih h.2]

/-- C10: calling delete with a conversation id that is not present in the
collection is a complete no-op — the collection, the current-conversation
pointer, the session assessment state and the persistence-save count are
all unchanged (the returned state is the input state). -/
theorem C10_delete_absent_noop (conversation_id : String) (s : AppState)
    (h : dictFind conversation_id s.conversations = none) :
    delete_conversation conversation_id s = s := by
  simp [delete_conversation, h]

/-- Witness for C10 at a concrete state and an absent id. -/
theorem C10_delete_absent_noop_witness :
    dictFind "zzz" oneConvState.conversations = none ∧
    delete_conversation "zzz" oneConvState = oneConvState :=
  ⟨by decide, C10_delete_absent_noop "zzz" oneConvState (by decide)⟩

theorem title_code_eq_claim (p : String) :
    (if p.length > 50 then p.take 50 ++ "..." else p) =
    (if p.length ≤ 50 then p else p.take 50 ++ "...") := by
  by_cases h : p.length ≤ 50
  · rw [if_neg (by omega), if_pos h]
  · rw [if_pos (by omega), if_neg h]

/-- C7: appending the first user-authored message to the current
conversation sets the title to the message itself when its length is at
most 50 characters, and to the first 50 characters followed by "..."
when it is longer; the message is appended to the ordered sequence. -/
theorem C7_first_message_title (prompt : String) (now : DT) (s : AppState)
    (cid : String) (conv : Conv)
    (hcur : s.current_conversation_id = some cid)
    (hfind : dictFind cid s.conversations = some conv)
    (hnouser : (conv.messages.filter (fun m => m.role == "user")).length = 0) :
    dictFind cid (submit_user_message prompt now s).conversations =
      some { conv with
        messages := conv.messages ++
          [{ role := "user", content := prompt, timestamp := now, latency := none }],
        title :=
          if prompt.length ≤ 50 then prompt else prompt.take 50 ++ "..." } := by
  rw [← title_code_eq_claim]
  simp only [submit_user_message, hcur, hfind]
  have hcount :
      ((conv.messages ++
          [({ role := "user", content := prompt, timestamp := now,
              latency := none } : Msg)]).filter
            (fun m => m.role == "user")).length = 1 := by
    simp [List.filter_append, hnouser]
  rw [if_pos hcount]
  simp [update_conversation_title, dictFind_dictSet_self]

/-- Witness for C7: a first user message of length 80 produces the first
50 characters plus "...", one of length 30 produces the message itself. -/
theorem C7_first_message_title_witness :
    dictFind "a" (submit_user_message prompt80 dtB oneConvState).conversations =
      some { convA with
        messages := convA.messages ++
          [{ role := "user", content := prompt80, timestamp := dtB, latency := none }],
        title := prompt80.take 50 ++ "..." } ∧
    dictFind "a" (submit_user_message prompt30 dtB oneConvState).conversations =
      some { convA with
        messages := convA.messages ++
          [{ role := "user", content := prompt30, timestamp := dtB, latency := none }],
        title := prompt30 } := by
  constructor
  · have h := C7_first_message_title prompt80 dtB oneConvState "a" convA rfl (by decide)
      (by decide)
    rw [if_neg (by decide)] at h
    exact h
  · have h := C7_first_message_title prompt30 dtB oneConvState "a" convA rfl (by decide)
      (by decide)
    rw [if_pos (by decide)] at h
    exact h

/-- C6: projecting a non-summary agent reply replaces the conversation's
live assessment state (the `state` key, mirrored into the session
assessment state) wholesale with the reply's `custom_outputs` when that
field is present; when it is absent the assessment state — both in the
conversation and in the session — is left unchanged and only a diagnostic
is emitted.  The previous state is never merged with the new one. -/
theorem C6_custom_outputs_projection (r : Reply) (conversation_id : String)
    (o : Option Reply) (now now2 : DT) (s : AppState) (conv : Conv)
    (hfind : dictFind conversation_id s.conversations = some conv) :
    (∀ a, r.custom_outputs = some a →
      dictFind conversation_id
          ((process_response (some r) conversation_id o now now2 false s).1).conversations ≠
          none ∧
      (∀ c2, dictFind conversation_id
          ((process_response (some r) conversation_id o now now2 false s).1).conversations =
          some c2 → c2.state = a) ∧
      ((process_response (some r) conversation_id o now now2 false s).1).assessment_state = a ∧
      ((process_response (some r) conversation_id o now now2 false s).1).diagnostics =
        s.diagnostics) ∧
    (r.custom_outputs = none →
      (∀ c2, dictFind conversation_id
          ((process_response (some r) conversation_id o now now2 false s).1).conversations =
          some c2 → c2.state = conv.state) ∧
      ((process_response (some r) conversation_id o now now2 false s).1).assessment_state =
        s.assessment_state ∧
      ((process_response (some r) conversation_id o now now2 false s).1).diagnostics =
        s.diagnostics + 1) := by
  constructor
  · intro a ha
    simp only [process_response, hfind, apply_custom_outputs, ha, Bool.false_eq_true,
      if_false]
    split <;> (try split) <;>
      simp [dictFind_dictSet_self]
  · intro ha
    simp only [process_response, hfind, apply_custom_outputs, ha, Bool.false_eq_true,
      if_false]
    split <;> (try split) <;>
      simp [dictFind_dictSet_self]

/-- Witness for C6: a reply with `custom_outputs` replaces the session
assessment state with exactly those outputs; a reply without the field
leaves the state alone and bumps the diagnostics count. -/
theorem C6_custom_outputs_projection_witness :
    ((process_response (some suitableReply) "a" none dtA dtB false oneConvState).1).assessment_state =
      [("result", JVal.str "suitable")] ∧
    ((process_response (some noOutputsReply) "a" none dtA dtB false oneConvState).1).assessment_state =
      oneConvState.assessment_state ∧
    ((process_response (some noOutputsReply) "a" none dtA dtB false oneConvState).1).diagnostics =
      oneConvState.diagnostics + 1 := by
  refine ⟨?_, ?_, ?_⟩
  · exact ((C6_custom_outputs_projection suitableReply "a" none dtA dtB oneConvState convA
      (by decide)).1 [("result", JVal.str "suitable")] rfl).2.2.1
  · exact ((C6_custom_outputs_projection noOutputsReply "a" none dtA dtB oneConvState convA
      (by decide)).2 rfl).2.1
  · exact ((C6_custom_outputs_projection noOutputsReply "a" none dtA dtB oneConvState convA
      (by decide)).2 rfl).2.2

/-- C2 (amended): delete removes the record and bumps the save count; when
the deleted record was current, the current pointer is cleared (no
remaining conversation is selected) and the session assessment state is
reset; when it was not current, pointer and assessment state are
untouched.  When the deleted record was the only one, the next session
initialization creates exactly one fresh conversation and selects it, so
the collection is never left empty across an interaction cycle. -/
theorem C2_delete_amended (conversation_id : String) (s : AppState) (conv : Conv)
    (hnodup : (s.conversations.map Prod.fst).Nodup)
    (hfind : dictFind conversation_id s.conversations = some conv) :
    dictFind conversation_id (delete_conversation conversation_id s).conversations = none ∧
    (∀ k, k ≠ conversation_id →
      dictFind k (delete_conversation conversation_id s).conversations =
        dictFind k s.conversations) ∧
    (s.current_conversation_id = some conversation_id →
      (delete_conversation conversation_id s).current_conversation_id = none ∧
      (delete_conversation conversation_id s).assessment_state = []) ∧
    (s.current_conversation_id ≠ some conversation_id →
      (delete_conversation conversation_id s).current_conversation_id =
        s.current_conversation_id ∧
      (delete_conversation conversation_id s).assessment_state = s.assessment_state) ∧
    (delete_conversation conversation_id s).saves = s.saves + 1 ∧
    (∀ cid2 sid2 now, s.conversations = [(conversation_id, conv)] →
      (init_autocreate cid2 sid2 now
          (delete_conversation conversation_id s)).conversations =
        [(cid2, { id := cid2, session_id := sid2, title := "Conversation 1",
                  messages := [{ role := "assistant", content := initial_message,
                                 timestamp := now, latency := none }],
                  created_at := now, updated_at := now, state := [], summary := "",
                  assessment_state := [] })] ∧
      (init_autocreate cid2 sid2 now
          (delete_conversation conversation_id s)).current_conversation_id =
        some cid2) := by
  have htitle : ("Conversation " ++ toString ((0 : Nat) + 1)) = "Conversation 1" := rfl
  have htitle1 : ("Conversation " ++ toString (1 : Nat)) = "Conversation 1" := rfl
  refine ⟨?_, ?_, ?_, ?_, ?_, ?_⟩
  · by_cases hcur : s.current_conversation_id = some conversation_id <;>
      simp [delete_conversation, hfind, hcur, dictFind_dictErase_self _ _ hnodup]
  · intro k hk
    by_cases hcur : s.current_conversation_id = some conversation_id <;>
      simp [delete_conversation, hfind, hcur, dictFind_dictErase_other _ _ _ hk]
  · intro hcur
    simp [delete_conversation, hfind, hcur]
  · intro hcur
    simp [delete_conversation, hfind, hcur]
  · by_cases hcur : s.current_conversation_id = some conversation_id <;>
      simp [delete_conversation, hfind, hcur]
  · intro cid2 sid2 now hsingle
    by_cases hcur : s.current_conversation_id = some conversation_id <;>
      simp [delete_conversation, hfind, hcur, hsingle, dictErase, dictFind,
        init_autocreate, create_new_conversation, dictSet, htitle, htitle1]

/-- Witness for C2 at a concrete single-conversation state. -/
theorem C2_delete_amended_witness :
    dictFind "a" (delete_conversation "a" oneConvState).conversations = none ∧
    (init_autocreate "n" "sn" dtB (delete_conversation "a" oneConvState)).conversations =
      [("n", { id := "n", session_id := "sn", title := "Conversation 1",
               messages := [{ role := "assistant", content := initial_message,
                              timestamp := dtB, latency := none }],
               created_at := dtB, updated_at := dtB, state := [], summary := "",
               assessment_state := [] })] ∧
    (init_autocreate "n" "sn" dtB
        (delete_conversation "a" oneConvState)).current_conversation_id = some "n" := by
  have h := C2_delete_amended "a" oneConvState convA (by decide) (by decide)
  exact ⟨h.1, (h.2.2.2.2.2 "n" "sn" dtB rfl).1, (h.2.2.2.2.2 "n" "sn" dtB rfl).2⟩

/-- C2 counterexample: deleting the current conversation "a" from a
two-conversation collection leaves "b" as the only (hence most recently
updated) remaining conversation, yet "b" does not become current — the
pointer is cleared instead, and stays cleared through the next session
initialization. -/
theorem C2_counterexample :
    (delete_conversation "a" twoConvState).conversations.map Prod.fst = ["b"] ∧
    twoConvState.current_conversation_id = some "a" ∧
    (delete_conversation "a" twoConvState).current_conversation_id ≠ some "b" ∧
    (init_autocreate "n" "sn" dtB
        (delete_conversation "a" twoConvState)).current_conversation_id = none := by
  decide

/-- C5: migration is idempotent — a second pass (even with a different
clock and different fresh session ids) changes nothing — and fills every
missing field with its default while preserving every present field:
`created_at` defaults to the migration time, `updated_at` to the (possibly
just filled) `created_at`, `title` to a placeholder derived from the
conversation id, `messages` and `assessment_state` to empty containers,
and the transport `session_id` to a fresh uuid. -/
theorem C5_migrate_idempotent (col : List (String × StoredConv)) (now1 now2 : DT)
    (sids1 sids2 : String → String) :
    migrate_conversations now2 sids2 (migrate_conversations now1 sids1 col) =
      migrate_conversations now1 sids1 col ∧
    (∀ k c, (k, c) ∈ col →
      (k, migrateConv now1 (sids1 k) k c) ∈ migrate_conversations now1 sids1 col ∧
      (migrateConv now1 (sids1 k) k c).created_at = some (c.created_at.getD now1) ∧
      (migrateConv now1 (sids1 k) k c).updated_at =
        some (c.updated_at.getD (c.created_at.getD now1)) ∧
      (migrateConv now1 (sids1 k) k c).title =
        some (c.title.getD ("Conversation " ++ k.take 8)) ∧
      (migrateConv now1 (sids1 k) k c).messages = some (c.messages.getD []) ∧
      (migrateConv now1 (sids1 k) k c).assessment_state =
        some (c.assessment_state.getD []) ∧
      (migrateConv now1 (sids1 k) k c).session_id = some (c.session_id.getD (sids1 k)) ∧
      (migrateConv now1 (sids1 k) k c).state =
        some (c.state.getD (c.assessment_state.getD [])) ∧
      (migrateConv now1 (sids1 k) k c).summary = some (c.summary.getD "")) := by
  constructor
  · induction col with
    | nil => rfl
    | cons p r ih =>
      obtain ⟨k, c⟩ := p
      simp only [migrate_conversations, List.map_cons] at ih ⊢
      rw [show migrateConv now2 (sids2 k) k (migrateConv now1 (sids1 k) k c) =
            migrateConv now1 (sids1 k) k c from by simp [migrateConv]]
      exact congrArg _ ih
  · intro k c hmem
    refine ⟨?_, rfl, rfl, rfl, rfl, rfl, rfl, rfl, rfl⟩
    exact List.mem_map_of_mem _ hmem

/-- Witness for C5 at a concrete one-record collection containing a
partially-shaped legacy record. -/
theorem C5_migrate_idempotent_witness :
    migrate_conversations dtB (fun _ => "sid2")
        (migrate_conversations dtA (fun _ => "sid") [("k", legacyStored)]) =
      migrate_conversations dtA (fun _ => "sid") [("k", legacyStored)] ∧
    (migrateConv dtA "sid" "k" legacyStored).created_at =
      some (legacyStored.created_at.getD dtA) ∧
    (migrateConv dtA "sid" "k" legacyStored).session_id =
      some (legacyStored.session_id.getD "sid") := by
  have h := C5_migrate_idempotent [("k", legacyStored)] dtA dtB
    (fun _ => "sid") (fun _ => "sid2")
  have h2 := h.2 "k" legacyStored (by simp)
  exact ⟨h.1, h2.2.1, h2.2.2.2.2.2.2.1⟩

theorem apply_custom_outputs_summary (r : Reply) (conv : Conv) :
    (apply_custom_outputs r conv).summary = conv.summary := by
  cases hc : r.custom_outputs <;> simp [apply_custom_outputs, hc]

theorem summary_guard_of_summary_ne (conv : Conv) (h : conv.summary ≠ "") :
    summary_guard conv = false := by
  simp [summary_guard, h]

theorem process_response_summary_safe (r : Reply) (conversation_id : String)
    (o : Option Reply) (now now2 : DT) (s : AppState)
    (hsafe : summary_safe conversation_id s) :
    (process_response (some r) conversation_id o now now2 false s).2 = false ∧
    summary_safe conversation_id
      (process_response (some r) conversation_id o now now2 false s).1 := by
  cases hf : dictFind conversation_id s.conversations with
  | none => simpa [process_response, hf] using hsafe
  | some conv =>
    have hsum : conv.summary ≠ "" := hsafe conv hf
    simp only [process_response, hf, Bool.false_eq_true, if_false]
    rw [summary_guard_of_summary_ne]
    · constructor
      · rfl
      · intro c hc
        simp only [Bool.false_eq_true, if_false] at hc
        rw [dictFind_dictSet_self] at hc
        cases hc
        simpa [apply_custom_outputs_summary] using hsum
    · rw [apply_custom_outputs_summary]
      exact hsum

theorem process_response_fired_safe (r : Reply) (conversation_id : String)
    (o : Option Reply) (now now2 : DT) (s : AppState)
    (hgood : oracle_nonempty o = true)
    (hfired : (process_response (some r) conversation_id o now now2 false s).2 = true) :
    summary_safe conversation_id
      (process_response (some r) conversation_id o now now2 false s).1 := by
  cases hf : dictFind conversation_id s.conversations with
  | none => simp [process_response, hf] at hfired
  | some conv =>
    cases ho : o with
    | none => simp [oracle_nonempty, ho] at hgood
    | some r2 =>
      have hc : (first_content r2).getD "" ≠ "" := by
        simpa [oracle_nonempty, ho] using hgood
      simp only [process_response, hf, ho, Bool.false_eq_true, if_false] at hfired ⊢
      intro c hcf
      rw [hfired] at hcf
      simp only [if_true] at hcf
      rw [dictFind_dictSet_self] at hcf
      cases hcf
      simpa using hc

theorem run_replies_safe (conversation_id : String) (steps : List ReplyStep) :
    ∀ s : AppState, summary_safe conversation_id s →
      (run_replies conversation_id steps s).2 = 0 := by
  induction steps with
  | nil => intro s _; rfl
  | cons st rest ih =>
    intro s hs
    have h := process_response_summary_safe st.reply conversation_id st.oracle st.now
      st.now2 s hs
    simp [run_replies, h.1, ih _ h.2]

theorem run_replies_le_one (conversation_id : String) (steps : List ReplyStep) :
    ∀ s : AppState, (∀ st ∈ steps, oracle_nonempty st.oracle = true) →
      (run_replies conversation_id steps s).2 ≤ 1 := by
  induction steps with
  | nil => intro s _; simp [run_replies]
  | cons st rest ih =>
    intro s hgood
    have hg : oracle_nonempty st.oracle = true := hgood st (List.mem_cons_self st rest)
    have hgrest : ∀ st2 ∈ rest, oracle_nonempty st2.oracle = true :=
      fun st2 h2 => hgood st2 (List.mem_cons_of_mem _ h2)
    cases hfired : (process_response (some st.reply) conversation_id st.oracle st.now
        st.now2 false s).2 with
    | true =>
      have hsafe := process_response_fired_safe st.reply conversation_id st.oracle st.now
        st.now2 s hg hfired
      have hrest := run_replies_safe conversation_id rest _ hsafe
      simp [run_replies, hfired, hrest]
    | false =>
      have hrest := ih (process_response (some st.reply) conversation_id st.oracle st.now
        st.now2 false s).1 hgrest
      simpa [run_replies, hfired] using hrest

/-- C3 (amended): over any sequence of projected non-summary replies, at
most one auto-summary request is issued, provided every issued summary
call succeeds with non-empty content (that non-empty summary is the
re-entry guard); and once a non-empty summary is recorded, zero further
requests are issued.  Without the proviso the at-most-once property
fails: see `C3_counterexample`. -/
theorem C3_auto_summary_amended (conversation_id : String) (steps : List ReplyStep)
    (s : AppState) (hgood : ∀ st ∈ steps, oracle_nonempty st.oracle = true) :
    (run_replies conversation_id steps s).2 ≤ 1 ∧
    (summary_safe conversation_id s → (run_replies conversation_id steps s).2 = 0) :=
  ⟨run_replies_le_one conversation_id steps s hgood,
   fun hs => run_replies_safe conversation_id steps s hs⟩

/-- Witness for C3: one suitable reply whose summary call returns
non-empty content issues at most one summary request; and from a state
whose conversation already has a summary, zero requests. -/
theorem C3_auto_summary_amended_witness :
    (run_replies "a" [goodSummaryStep, goodSummaryStep] oneConvState).2 ≤ 1 :=
  (C3_auto_summary_amended "a" [goodSummaryStep, goodSummaryStep] oneConvState
    (by decide)).1

/-- C3 counterexample: two suitable replies whose auto-summary calls each
return empty content cause the summary request to be issued twice for the
same conversation — the guard is the non-empty summary, and an empty
summary result leaves it open. -/
theorem C3_counterexample :
    ¬ ((run_replies "a" [emptySummaryStep, emptySummaryStep] oneConvState).2 ≤ 1) := by
  decide

theorem apply_custom_outputs_created (r : Reply) (conv : Conv) :
    (apply_custom_outputs r conv).created_at = conv.created_at := by
  cases hc : r.custom_outputs <;> simp [apply_custom_outputs, hc]

/-- C9 (amended): `updated_at >= created_at` holds for every stored
conversation after creation (both equal the creation time), after a user
message append (timestamps untouched), and after a non-summary reply
projection given a monotone clock (`created_at <= now2`); after
migration it holds for every record that is not missing `created_at`
while carrying an `updated_at` — on such legacy records migration sets
`created_at` to the migration time, which can exceed the preserved
`updated_at` (see `C9_counterexample`). -/
theorem C9_timestamp_invariant_amended :
    (∀ cid sid now s, ts_invariant s →
      ts_invariant (create_new_conversation cid sid now s)) ∧
    (∀ prompt now s, ts_invariant s →
      ts_invariant (submit_user_message prompt now s)) ∧
    (∀ r cid o now now2 s, ts_invariant s →
      (∀ c, dictFind cid s.conversations = some c → DT.le c.created_at now2) →
      ts_invariant (process_response (some r) cid o now now2 false s).1) ∧
    (∀ now sid cid c t1 t2,
      ¬ (c.created_at = none ∧ c.updated_at ≠ none) →
      (∀ u1 u2, c.created_at = some u1 → c.updated_at = some u2 → DT.le u1 u2) →
      (migrateConv now sid cid c).created_at = some t1 →
      (migrateConv now sid cid c).updated_at = some t2 →
      DT.le t1 t2) := by
  refine ⟨?_, ?_, ?_, ?_⟩
  · intro cid sid now s hs k c hk
    simp only [create_new_conversation] at hk
    rw [dictFind_dictSet] at hk
    by_cases hkc : cid = k
    · rw [if_pos hkc, Option.some_inj] at hk
      rw [← hk]
      exact DT.le_refl now
    · rw [if_neg hkc] at hk
      exact hs k c hk
  · intro prompt now s hs k c hk
    cases hcur : s.current_conversation_id with
    | none =>
      simp only [submit_user_message, hcur] at hk
      exact hs k c hk
    | some cid =>
      cases hf : dictFind cid s.conversations with
      | none =>
        simp only [submit_user_message, hcur, hf] at hk
        exact hs k c hk
      | some conv =>
        simp only [submit_user_message, hcur, hf] at hk
        by_cases hcond :
            ((conv.messages ++
                [({ role := "user", content := prompt, timestamp := now,
                    latency := none } : Msg)]).filter
                  (fun m => m.role == "user")).length = 1
        · rw [if_pos hcond] at hk
          simp only [update_conversation_title, dictFind_dictSet_self] at hk
          rw [dictFind_dictSet] at hk
          by_cases hkc : cid = k
          · rw [if_pos hkc, Option.some_inj] at hk
            rw [← hk]
            exact hs cid conv hf
          · rw [if_neg hkc] at hk
            rw [dictFind_dictSet] at hk
            by_cases hkc2 : cid = k
            · exact absurd hkc2 hkc
            · rw [if_neg hkc2] at hk
              exact hs k c hk
        · rw [if_neg hcond] at hk
          rw [dictFind_dictSet] at hk
          by_cases hkc : cid = k
          · rw [if_pos hkc, Option.some_inj] at hk
            rw [← hk]
            exact hs cid conv hf
          · rw [if_neg hkc] at hk
            exact hs k c hk
  · intro r cid o now now2 s hs hclock k c hk
    cases hf : dictFind cid s.conversations with
    | none =>
      simp only [process_response, hf] at hk
      exact hs k c hk
    | some conv =>
      simp only [process_response, hf, Bool.false_eq_true, if_false] at hk
      rw [dictFind_dictSet] at hk
      by_cases hkc : cid = k
      · rw [if_pos hkc, Option.some_inj] at hk
        rw [← hk]
        show DT.le _ now2
        split
        · split <;> simp [apply_custom_outputs_created] <;> exact hclock conv hf
        · simp [apply_custom_outputs_created]
          exact hclock conv hf
      · rw [if_neg hkc] at hk
        exact hs k c hk
  · intro now sid cid c t1 t2 hnotlegacy hold h1 h2
    simp only [migrateConv, Option.some_inj] at h1 h2
    cases hca : c.created_at with
    | none =>
      cases hcu : c.updated_at with
      | none =>
        simp only [hca, hcu, Option.getD_none] at h1 h2
        rw [← h1, ← h2]
        exact DT.le_refl now
      | some w =>
        exact absurd ⟨hca, by simp [hcu]⟩ hnotlegacy
    | some u =>
      cases hcu : c.updated_at with
      | none =>
        simp only [hca, hcu, Option.getD_none, Option.getD_some] at h1 h2
        rw [← h1, ← h2]
        exact DT.le_refl u
      | some w =>
        simp only [hca, hcu, Option.getD_some] at h1 h2
        rw [← h1, ← h2]
        exact hold u w hca hcu

/-- C9 counterexample: migrating a legacy record that has an (old)
`updated_at` but no `created_at` sets `created_at` to the migration time,
leaving `updated_at < created_at`. -/
theorem C9_counterexample :
    (migrateConv dtB "s2" "cid" legacyStored).created_at = some dtB ∧
    (migrateConv dtB "s2" "cid" legacyStored).updated_at = some dtA ∧
    ¬ DT.le dtB dtA := by
  decide

/-- Witness for C9: the invariant after creating a conversation in a
concrete well-formed state. -/
theorem C9_timestamp_invariant_amended_witness :
    ts_invariant (create_new_conversation "n" "sn" dtB oneConvState) := by
  apply C9_timestamp_invariant_amended.1
  intro k c h
  simp only [oneConvState, dictFind] at h
  split at h
  · cases h
    decide
  · simp at h

theorem pySplit_ne_nil (sep : Char) (l : List Char) : pySplit sep l ≠ [] := by
  cases l with
  | nil => simp [pySplit]
  | cons c r =>
    simp only [pySplit]
    cases hr : pySplit sep r with
    | nil => simp
    | cons g gs => by_cases hc : c = sep <;> simp [hc]

theorem pySplit_no_sep (sep : Char) (l : List Char) (h : hasChar sep l = false) :
    pySplit sep l = [l] := by
  induction l with
  | nil => rfl
  | cons c r ih =>
    simp only [hasChar, Bool.or_eq_false_iff] at h
    have hc : ¬ c = sep := by
      intro he; rw [he] at h; simp at h
    simp [pySplit, ih h.2, hc]

theorem afterFirstAt_at (r : List Char) : afterFirstAt ('@' :: r) = r := by
  simp [afterFirstAt]

theorem getD1_pySplit (l : List Char) (h : hasChar '@' (afterFirstAt l) = false) :
    (pySplit '@' l).getD 1 [] = afterFirstAt l := by
  induction l with
  | nil => rfl
  | cons c r ih =>
    by_cases hc : c = '@'
    · subst hc
      rw [afterFirstAt_at] at h ⊢
      simp [pySplit, pySplit_no_sep '@' r h]
    · have hafter : afterFirstAt (c :: r) = afterFirstAt r := by
        simp [afterFirstAt, hc]
      rw [hafter] at h ⊢
      obtain ⟨g, gs, hgs⟩ : ∃ g gs, pySplit '@' r = g :: gs := by
        cases hr : pySplit '@' r with
        | nil => exact absurd hr (pySplit_ne_nil _ _)
        | cons g gs => exact ⟨g, gs, rfl⟩
      have hr := ih h
      rw [hgs] at hr
      simp only [pySplit, hgs, if_neg hc]
      simpa using hr

theorem entry_match_eq (e a : List Char)
    (h : hasChar '@' (afterFirstAt e) = false) :
    (e == a || (startsWithAt a && (emailDomain e == a))) =
    (if startsWithAt a then hasChar '@' e && (afterFirstAt e == a.tail)
     else e == a) := by
  cases a with
  | nil => simp [startsWithAt]
  | cons c dom =>
    by_cases hc : c = '@'
    · subst hc
      simp only [startsWithAt, beq_self_eq_true, if_true, List.tail_cons, Bool.true_and]
      cases hhase : hasChar '@' e with
      | false =>
        have hne : (e == '@' :: dom) = false := by
          rw [beq_eq_false_iff_ne]
          intro he
          rw [he] at hhase
          simp [hasChar] at hhase
        simp [emailDomain, hhase, hne]
      | true =>
        have hdom : (pySplit '@' e).getD 1 [] = afterFirstAt e := getD1_pySplit e h
        simp only [emailDomain, hhase, if_true, hdom, Bool.true_and]
        by_cases hd : afterFirstAt e = dom
        · simp [hd]
        · have h2 : ('@' :: afterFirstAt e == '@' :: dom) = false := by
            rw [beq_eq_false_iff_ne]
            intro hcontra
            exact hd (by injection hcontra)
          have h1 : (e == '@' :: dom) = false := by
            rw [beq_eq_false_iff_ne]
            intro he
            apply hd
            rw [he, afterFirstAt_at]
          simp [h1, h2, beq_eq_false_iff_ne.mpr hd]
    · have hs : startsWithAt (c :: dom) = false := by
        simp [startsWithAt, hc]
      simp [hs]

/-- C4: the source's authorization check agrees with the spec's matching
rule — trim and lowercase both sides; an entry starting with "@" matches
exactly when the candidate's full domain (everything after its "@")
equals the entry with the leading "@" stripped, with no subdomain or
substring matching; any other entry matches only on full equality — for
every candidate whose normalized form contains at most one "@" (every
well-formed email).  The three spec examples evaluate as stated. -/
theorem C4_email_authorization (email : String) (allow_list : List String)
    (h : hasChar '@' (afterFirstAt (pyLower (pyStrip email.toList))) = false) :
    is_email_authorized email allow_list = authorizeSpec email allow_list ∧
    is_email_authorized "USER@Example.com" ["user@example.com"] = true ∧
    is_email_authorized "user@evil.com" ["@example.com"] = false ∧
    is_email_authorized "a@sub.example.com" ["@example.com"] = false := by
  refine ⟨?_, by decide, by decide, by decide⟩
  simp only [is_email_authorized, authorizeSpec]
  induction allow_list with
  | nil => rfl
  | cons entry rest ih =>
    simp only [List.any_cons]
    rw [ih, entry_match_eq _ _ h]

/-- Witness for C4 at a concrete email and allow-list. -/
theorem C4_email_authorization_witness :
    is_email_authorized "x@y.com" ["@y.com"] = authorizeSpec "x@y.com" ["@y.com"] ∧
    is_email_authorized "USER@Example.com" ["user@example.com"] = true ∧
    is_email_authorized "user@evil.com" ["@example.com"] = false ∧
    is_email_authorized "a@sub.example.com" ["@example.com"] = false :=
  C4_email_authorization "x@y.com" ["@y.com"] (by decide)

end Triage
